import Mathlib

/-!
Shallow embedding of the pantry-agent repository (despensa_agent.py).

The ledger DESPENSA_DB is a Python dict from item name to either a
structured record with fields stock / unidad / estado, or a legacy bare
status string.  Python dicts preserve insertion order, look up by exact
key, and overwrite in place, so the ledger is modelled as an ordered
association list with first-occurrence get/set semantics.

Machine integers: Python ints are unbounded, so quantities are Lean Int.
External capabilities (the language model, the Whisper transcription API,
the LangGraph reasoning loop) are modelled as oracle parameters; all code
that runs before or after those calls is translated directly from source.
-/

set_option autoImplicit false

namespace Despensa

/-- A value stored in DESPENSA_DB: either the structured dict written by
actualizar_despensa, or a legacy bare status string (the code's
"formato antiguo" branches). -/
inductive Valor where
  | entrada (stock : Int) (unidad : String) (estado : String)
  | legado (estado : String)
deriving DecidableEq, Repr

/-- The ledger DESPENSA_DB: insertion-ordered key/value pairs. -/
abbrev Ledger := List (String × Valor)

/-- Python dict lookup: first (and, for a real dict, only) binding wins. -/
def dictGet : Ledger → String → Option Valor
  | [], _ => none
  | (k', v') :: rest, k => if k' = k then some v' else dictGet rest k

/-- Python dict assignment: overwrite the first binding in place,
or append a new binding at the end. -/
def dictSet : Ledger → String → Valor → Ledger
  | [], k, v => [(k, v)]
  | (k', v') :: rest, k, v =>
      if k' = k then (k', v) :: rest else (k', v') :: dictSet rest k v

/-- The key list of a ledger, in order. -/
def claves (db : Ledger) : List String := db.map Prod.fst

/-- Python str.lower, embedded structurally so proofs can evaluate it. -/
def pyLower (s : String) : String := ⟨s.data.map Char.toLower⟩

/-- Python str.upper, embedded structurally so proofs can evaluate it. -/
def pyUpper (s : String) : String := ⟨s.data.map Char.toUpper⟩

/-- Python str.strip: drop leading and trailing whitespace. -/
def pyStrip (s : String) : String :=
  ⟨((s.data.dropWhile Char.isWhitespace).reverse.dropWhile
      Char.isWhitespace).reverse⟩

/-- Canonical storage key: item_name.lower().strip() in the source. -/
def claveDe (nombre : String) : String := pyStrip (pyLower nombre)

/-- The three admitted status values (estados_validos in the source). -/
def estadosValidos : List String := ["BAJO", "MEDIO", "ALTO"]

/-- Status derived from a quantity, lines 248-254 of despensa_agent.py:
0 gives BAJO, at most 2 gives MEDIO, otherwise ALTO. -/
def estadoDerivado (cantidad : Int) : String :=
  if cantidad = 0 then "BAJO"
  else if cantidad ≤ 2 then "MEDIO"
  else "ALTO"

/-- Result of actualizar_despensa: success flag, whether the item was new,
the error message if any, and the ledger after the call. -/
structure ActSalida where
  exito : Bool
  esNuevo : Bool
  error : Option String
  db : Ledger
deriving DecidableEq, Repr

/-- Python's `unidad or "unidad"` (line 245): None and the empty string
both fall back to the default unit. -/
def unidadEfectiva (unidad : Option String) : String :=
  match unidad with
  | none => "unidad"
  | some u => if u = "" then "unidad" else u

/-- The status before normalisation (lines 248-256): an explicit status
wins; otherwise it is derived from the quantity when one is given, and
defaults to MEDIO when neither is given. -/
def estadoElegido (estado : Option String) (cantidad : Option Int) : String :=
  match estado, cantidad with
  | some e, _ => e
  | none, some c => estadoDerivado c
  | none, none => "MEDIO"

/-- Stock written by the upsert (line 276): the given quantity, else the
previous stock of a structured entry, else 0. -/
def stockNuevo (existente : Option Valor) (cantidad : Option Int) : Int :=
  match cantidad with
  | some c => c
  | none =>
    match existente with
    | some (.entrada s _ _) => s
    | _ => 0

/-- Embedding of actualizar_despensa (lines 231-291): the chosen status is
uppercased/stripped and validated against estadosValidos; on failure
nothing is written; on success the entry is created or overwritten at the
lowercase-trimmed key. -/
def actualizar_despensa (db : Ledger) (item_name : String)
    (cantidad : Option Int) (unidad : Option String) (estado : Option String) :
    ActSalida :=
  let key := claveDe item_name
  let estadoUpper := pyStrip (pyUpper (estadoElegido estado cantidad))
  if estadoUpper ∈ estadosValidos then
    let existente := dictGet db key
    { exito := true
      esNuevo := existente.isNone
      error := none
      db := dictSet db key
        (.entrada (stockNuevo existente cantidad) (unidadEfectiva unidad) estadoUpper) }
  else
    { exito := false
      esNuevo := false
      error := some ("Estado '" ++ estadoElegido estado cantidad ++
        "' no válido. Use: BAJO, MEDIO o ALTO")
      db := db }

/-- Result of consultar_despensa: found flag and, when present, the
reported stock / unit / status fields (legacy entries report only a
status, as in the source's "formato antiguo" branch). -/
structure ConsultaSalida where
  encontrado : Bool
  stock : Option Int
  unidad : Option String
  estado : Option String
deriving DecidableEq, Repr

/-- Embedding of consultar_despensa (lines 184-227): lowercase-trimmed
lookup in DESPENSA_DB. -/
def consultar_despensa (db : Ledger) (item_name : String) : ConsultaSalida :=
  match dictGet db (claveDe item_name) with
  | none => { encontrado := false, stock := none, unidad := none, estado := none }
  | some (.entrada s u e) =>
      { encontrado := true, stock := some s, unidad := some u, estado := some e }
  | some (.legado e) =>
      { encontrado := true, stock := none, unidad := none, estado := some e }

/-- One line item of an extracted intent: productos[i] in the JSON schema.
cantidad may be null; a missing or null unidad is read by the source with
producto.get("unidad", "unidad"). -/
structure Item where
  nombre : String
  cantidad : Option Int
  unidad : Option String
deriving DecidableEq, Repr

/-- A structured extraction: accion, productos and intencion, exactly the
JSON object produced by extraer_productos_desde_texto. -/
structure Extracto where
  accion : String
  productos : List Item
  intencion : String
deriving DecidableEq, Repr

/-- Outcome of the external language capability call plus JSON decoding
inside extraer_productos_desde_texto: either a well-formed payload, a
json.JSONDecodeError from json.loads, or any other exception raised while
handling the response. -/
inductive SalidaCapacidad where
  | valida (e : Extracto)
  | errorJson
  | errorOtro
deriving DecidableEq, Repr

/-- Embedding of the result handling of extraer_productos_desde_texto
(lines 135-168): a successfully decoded payload is returned unchanged; a
JSON decoding failure yields the fixed fail-soft default; any other
exception yields the second fixed default.  The language model call and
Python's JSON parser are the oracle summarised by SalidaCapacidad. -/
def extraer_productos_desde_texto (r : SalidaCapacidad) : Extracto :=
  match r with
  | .valida e => e
  | .errorJson =>
      { accion := "QUERY", productos := [],
        intencion := "no se pudo extraer información estructurada" }
  | .errorOtro =>
      { accion := "QUERY", productos := [], intencion := "error al procesar" }

/-- One element of the productos_bajo_stock list built by the
SHOPPING_LIST branch (lines 361-375): structured entries report name,
current stock, unit and status; legacy entries report name and status. -/
structure ProductoBajo where
  nombre : String
  stockActual : Option Int
  unidad : Option String
  estado : String
deriving DecidableEq, Repr

/-- The SHOPPING_LIST scan (lines 361-375): a structured entry is listed
when its status is BAJO or its stock is 0; a legacy entry is listed when
its bare status is BAJO. -/
def productos_bajo_stock : Ledger → List ProductoBajo
  | [] => []
  | (n, .entrada s u e) :: rest =>
      if e = "BAJO" ∨ s = 0 then
        ⟨n, some s, some u, e⟩ :: productos_bajo_stock rest
      else productos_bajo_stock rest
  | (n, .legado e) :: rest =>
      if e = "BAJO" then ⟨n, none, none, e⟩ :: productos_bajo_stock rest
      else productos_bajo_stock rest

/-- One per-operation record appended to resultados by
procesar_extracto_productos. -/
inductive OpResultado where
  | actualizacion (producto : String) (exito : Bool) (esNuevo : Bool)
  | consulta (producto : String) (salida : ConsultaSalida)
  | consultaTodos (productos : Ledger)
  | listaCompras (productos : List ProductoBajo)
deriving DecidableEq, Repr

/-- The aggregate resultado_final of procesar_extracto_productos. -/
structure ProcFinal where
  accionOriginal : String
  resultados : List OpResultado
deriving DecidableEq, Repr

/-- The UPDATE/CREATE loop of procesar_extracto_productos (lines 314-326):
each item is upserted in order with its quantity and with
producto.get("unidad", "unidad") as the unit; no explicit status is
passed. -/
def aplicarProductos (db : Ledger) : List Item → Ledger × List OpResultado
  | [] => (db, [])
  | p :: rest =>
      let r := actualizar_despensa db p.nombre p.cantidad
        (some (p.unidad.getD "unidad")) none
      let siguiente := aplicarProductos r.db rest
      (siguiente.1,
        .actualizacion p.nombre r.exito r.esNuevo :: siguiente.2)

/-- Embedding of procesar_extracto_productos (lines 295-398), acting on a
ledger and returning the updated ledger with the aggregate result.  An
action outside the four handled ones falls through every branch and
produces an empty outcome list, as in the source. -/
def procesar_extracto_productos (db : Ledger) (ex : Extracto) :
    Ledger × ProcFinal :=
  if ex.accion = "UPDATE" ∨ ex.accion = "CREATE" then
    let r := aplicarProductos db ex.productos
    (r.1, { accionOriginal := ex.accion, resultados := r.2 })
  else if ex.accion = "QUERY" then
    if ex.productos.isEmpty then
      (db, { accionOriginal := ex.accion,
             resultados := [.consultaTodos db] })
    else
      (db, { accionOriginal := ex.accion,
             resultados := ex.productos.map
               (fun p => .consulta p.nombre (consultar_despensa db p.nombre)) })
  else if ex.accion = "SHOPPING_LIST" then
    (db, { accionOriginal := ex.accion,
           resultados := [.listaCompras (productos_bajo_stock db)] })
  else
    (db, { accionOriginal := ex.accion, resultados := [] })

/-- Filesystem facts about one audio path, as observed by the validation
prefix of transcribir_audio: os.path.exists, os.path.isfile, the
lowercased extension from os.path.splitext, and the size in bytes. -/
structure ArchivoAudio where
  existe : Bool
  esArchivo : Bool
  extension : String
  tamanoBytes : Nat
deriving DecidableEq, Repr

/-- The four validation failures of transcribir_audio, in source order:
FileNotFoundError, ValueError (not a file), ValueError (unsupported
format), ValueError (file over 25 MB). -/
inductive ErrorAudio where
  | noEncontrado
  | noEsArchivo
  | formatoNoSoportado
  | demasiadoGrande
deriving DecidableEq, Repr

/-- The extension allow-list of transcribir_audio (line 429). -/
def extensionesValidas : List String :=
  [".mp3", ".mp4", ".mpeg", ".mpga", ".m4a", ".wav", ".webm", ".ogg"]

/-- Embedding of transcribir_audio (lines 405-438 and onward): the four
validations run in order before anything else; only after all of them
pass does the function reach an OpenAI transcription call.  The external
Whisper capability is the oracle transcripcion; the second component
counts external transcription calls made (the success path makes its
first call there; every validation failure makes none). -/
def transcribir_audio (f : ArchivoAudio) (transcripcion : String) :
    Except ErrorAudio String × Nat :=
  if !f.existe then (.error .noEncontrado, 0)
  else if !f.esArchivo then (.error .noEsArchivo, 0)
  else if f.extension ∈ extensionesValidas then
    if f.tamanoBytes > 25 * 1024 * 1024 then (.error .demasiadoGrande, 0)
    else (.ok transcripcion, 1)
  else (.error .formatoNoSoportado, 0)

/-- The reverse scan inside run_agent (lines 932-944) over the turn's
messages: each message either embeds a parseable structured extraction
payload (some) or does not (none, covering both absence of the marker and
a failed parse, which the source skips with a bare except).  The scan
walks the reversed message list and keeps the first payload found. -/
def buscarAux : List (Option Extracto) → Option Extracto
  | [] => none
  | some e :: _ => some e
  | none :: rest => buscarAux rest

/-- buscar the last embedded payload: reversed(result["messages"]) scan. -/
def buscarExtracto (msgs : List (Option Extracto)) : Option Extracto :=
  buscarAux msgs.reverse

/-- What run_agent hands back to its caller: the natural-language reply
always; the extraction payload and its processed outcome only when the
reverse scan found a payload. -/
structure RunAgentSalida where
  respuesta : String
  extracto : Option Extracto
  resultadoProcesado : Option ProcFinal
deriving DecidableEq, Repr

/-- Embedding of the tail of run_agent (lines 927-967): after the graph
run produced the final reply and the turn's message contents, scan the
messages in reverse for an embedded extraction payload; if one is found,
feed it synchronously through procesar_extracto_productos and return the
reply together with the structured outcome; otherwise return only the
reply and leave the ledger untouched. -/
def run_agent_final (db : Ledger) (respuestaFinal : String)
    (msgs : List (Option Extracto)) : Ledger × RunAgentSalida :=
  match buscarExtracto msgs with
  | none => (db, { respuesta := respuestaFinal, extracto := none,
                   resultadoProcesado := none })
  | some ex =>
      let r := procesar_extracto_productos db ex
      (r.1, { respuesta := respuestaFinal, extracto := some ex,
              resultadoProcesado := some r.2 })

/-! ## Basic lemmas about the dict operations -/

theorem dictGet_dictSet (db : Ledger) (k k' : String) (v : Valor) :
    dictGet (dictSet db k v) k' = if k' = k then some v else dictGet db k' := by
  induction db with
  | nil =>
      simp only [dictSet, dictGet]
      by_cases h : k' = k
      · rw [if_pos h.symm, if_pos h]
      · rw [if_neg (fun hh => h hh.symm), if_neg h]
  | cons kv rest ih =>
      obtain ⟨a, b⟩ := kv
      simp only [dictSet]
      by_cases ha : a = k
      · subst ha
        rw [if_pos rfl]
        simp only [dictGet]
        by_cases h : k' = a
        · rw [if_pos h.symm, if_pos h]
        · rw [if_neg (fun hh => h hh.symm), if_neg h,
            if_neg (fun hh => h hh.symm)]
      · rw [if_neg ha]
        simp only [dictGet]
        by_cases h : a = k'
        · rw [if_pos h, if_neg (fun hh => ha (h.trans hh)), if_pos h]
        · rw [if_neg h, ih]
          by_cases hk : k' = k
          · rw [if_pos hk, if_pos hk]
          · rw [if_neg hk, if_neg hk, if_neg h]

theorem estadoDerivado_casos (c : Int) :
    estadoDerivado c = "BAJO" ∨ estadoDerivado c = "MEDIO" ∨
      estadoDerivado c = "ALTO" := by
  unfold estadoDerivado
  split
  · exact Or.inl rfl
  · split
    · exact Or.inr (Or.inl rfl)
    · exact Or.inr (Or.inr rfl)

theorem estadoDerivado_norm (c : Int) :
    pyStrip (pyUpper (estadoDerivado c)) = estadoDerivado c := by
  rcases estadoDerivado_casos c with h | h | h <;> rw [h] <;> decide

theorem estadoDerivado_valido (c : Int) :
    estadoDerivado c ∈ estadosValidos := by
  rcases estadoDerivado_casos c with h | h | h <;> rw [h] <;> decide

/-- Upsert with no explicit status: the derived (or default) status always
passes validation, so the call succeeds and writes the expected entry. -/
theorem actualizar_sin_estado (db : Ledger) (name : String)
    (cantidad : Option Int) (u : Option String) :
    actualizar_despensa db name cantidad u none =
      { exito := true
        esNuevo := (dictGet db (claveDe name)).isNone
        error := none
        db := dictSet db (claveDe name)
          (.entrada (stockNuevo (dictGet db (claveDe name)) cantidad)
            (unidadEfectiva u)
            (estadoElegido none cantidad)) } := by
  unfold actualizar_despensa
  have hnorm : pyStrip (pyUpper (estadoElegido none cantidad)) =
      estadoElegido none cantidad := by
    cases cantidad with
    | none => decide
    | some c => exact estadoDerivado_norm c
  have hval : estadoElegido none cantidad ∈ estadosValidos := by
    cases cantidad with
    | none => decide
    | some c => exact estadoDerivado_valido c
  rw [hnorm, if_pos hval]

/-! ## Claim theorems: the upsert (C2, C3, C9, C10) -/

/-- C2: for every quantity q >= 0 given to the upsert with no explicit
status, the stored status is BAJO iff q = 0, MEDIO iff 1 <= q <= 2, and
ALTO iff q > 2. -/
theorem actualizar_derivacion_estado (db : Ledger) (name : String)
    (u : Option String) (q : Int) (hq : 0 ≤ q) :
    ∃ u', dictGet (actualizar_despensa db name (some q) u none).db
        (claveDe name) = some (.entrada q u' (estadoDerivado q)) ∧
      (estadoDerivado q = "BAJO" ↔ q = 0) ∧
      (estadoDerivado q = "MEDIO" ↔ 1 ≤ q ∧ q ≤ 2) ∧
      (estadoDerivado q = "ALTO" ↔ 2 < q) := by
  refine ⟨unidadEfectiva u, ?_, ?_, ?_, ?_⟩
  · rw [actualizar_sin_estado]
    simp [dictGet_dictSet, stockNuevo, estadoElegido]
  · unfold estadoDerivado
    split
    · simp [*]
    · split <;> (rename_i h1 h2; constructor)
      · intro h; exact absurd h (by decide)
      · intro h; exact absurd h h1
      · intro h; exact absurd h (by decide)
      · intro h; omega
  · unfold estadoDerivado
    split
    · rename_i h0
      constructor
      · intro h; exact absurd h (by decide)
      · intro h; omega
    · split <;> (rename_i h1 h2; constructor)
      · intro _; omega
      · intro _; rfl
      · intro h; exact absurd h (by decide)
      · intro h; omega
  · unfold estadoDerivado
    split
    · rename_i h0
      constructor
      · intro h; exact absurd h (by decide)
      · intro h; omega
    · split <;> (rename_i h1 h2; constructor)
      · intro h; exact absurd h (by decide)
      · intro h; omega
      · intro _; omega
      · intro _; rfl

/-- Concrete instance of the status-derivation law at q = 3. -/
theorem actualizar_derivacion_estado_testigo :
    (0 : Int) ≤ 3 ∧
      ∃ u', dictGet (actualizar_despensa [] "leche" (some 3) none none).db
          (claveDe "leche") = some (.entrada 3 u' (estadoDerivado 3)) ∧
        (estadoDerivado 3 = "BAJO" ↔ (3 : Int) = 0) ∧
        (estadoDerivado 3 = "MEDIO" ↔ (1 : Int) ≤ 3 ∧ (3 : Int) ≤ 2) ∧
        (estadoDerivado 3 = "ALTO" ↔ (2 : Int) < 3) :=
  ⟨by decide, actualizar_derivacion_estado [] "leche" none 3 (by decide)⟩

/-- Full characterization of upsert failure: it happens exactly on an
explicit status whose normalized form is invalid, and then nothing is
written. -/
theorem actualizar_fallo_aux (db : Ledger) (name : String)
    (cantidad : Option Int) (u : Option String) (estado : Option String) :
    ((actualizar_despensa db name cantidad u estado).exito = false ↔
      ∃ e, estado = some e ∧ pyStrip (pyUpper e) ∉ estadosValidos) ∧
    ((actualizar_despensa db name cantidad u estado).exito = false →
      (actualizar_despensa db name cantidad u estado).error ≠ none ∧
      (actualizar_despensa db name cantidad u estado).db = db) := by
  cases estado with
  | none =>
      rw [actualizar_sin_estado]
      refine ⟨⟨fun h => absurd h (by simp), fun ⟨e, he, _⟩ => by cases he⟩, ?_⟩
      intro h; exact absurd h (by simp)
  | some e =>
      unfold actualizar_despensa
      have hbase : estadoElegido (some e) cantidad = e := rfl
      rw [hbase]
      by_cases hv : pyStrip (pyUpper e) ∈ estadosValidos
      · rw [if_pos hv]
        refine ⟨⟨fun h => absurd h (by simp), ?_⟩, fun h => absurd h (by simp)⟩
        rintro ⟨e', he', hne⟩
        cases he'; exact absurd hv hne
      · rw [if_neg hv]
        exact ⟨⟨fun _ => ⟨e, rfl, hv⟩, fun _ => rfl⟩, fun _ => ⟨by simp, rfl⟩⟩

/-- C3: the upsert fails exactly when an explicit status whose
uppercased/stripped form is outside BAJO/MEDIO/ALTO is supplied; on
failure an error is reported and nothing is written; every other call,
whatever the name, succeeds. -/
theorem actualizar_fallo_solo_estado_invalido (db : Ledger) (name : String)
    (cantidad : Option Int) (u : Option String) (estado : Option String) :
    ((actualizar_despensa db name cantidad u estado).exito = false ↔
      ∃ e, estado = some e ∧ pyStrip (pyUpper e) ∉ estadosValidos) ∧
    ((actualizar_despensa db name cantidad u estado).exito = false →
      (actualizar_despensa db name cantidad u estado).error ≠ none ∧
      (actualizar_despensa db name cantidad u estado).db = db) :=
  actualizar_fallo_aux db name cantidad u estado

/-- Concrete instances of C3: an invalid explicit status fails with an
error and no write; a weird name with no status succeeds. -/
theorem actualizar_fallo_solo_estado_invalido_testigo :
    (actualizar_despensa [] "pan" (some 1) none (some "LLENO")).exito = false ∧
    (actualizar_despensa [] "pan" (some 1) none (some "LLENO")).db = [] ∧
    (actualizar_despensa [] "  P@N raro  " none none none).exito = true := by
  have h1 := actualizar_fallo_solo_estado_invalido [] "pan" (some 1) none
    (some "LLENO")
  have hf : (actualizar_despensa [] "pan" (some 1) none (some "LLENO")).exito
      = false := h1.1.mpr ⟨"LLENO", rfl, by decide⟩
  have h2 := actualizar_fallo_solo_estado_invalido [] "  P@N raro  " none none
    none
  refine ⟨hf, (h1.2 hf).2, ?_⟩
  cases hx : (actualizar_despensa [] "  P@N raro  " none none none).exito
  · exact absurd (h2.1.mp hx) (by rintro ⟨e, he, -⟩; cases he)
  · rfl

/-- C9: upserting an existing structured entry with only the name
preserves its stock but resets the unit to "unidad" and the status to
MEDIO, whatever the previous unit and status were. -/
theorem actualizar_solo_nombre_reinicia (db : Ledger) (name : String)
    (s : Int) (u e : String)
    (h : dictGet db (claveDe name) = some (.entrada s u e)) :
    (actualizar_despensa db name none none none).db =
      dictSet db (claveDe name) (.entrada s "unidad" "MEDIO") ∧
    dictGet (actualizar_despensa db name none none none).db (claveDe name) =
      some (.entrada s "unidad" "MEDIO") := by
  rw [actualizar_sin_estado]
  constructor <;>
    simp [h, stockNuevo, unidadEfectiva, estadoElegido, dictGet_dictSet]

/-- Concrete instance of C9: a previous unit and status are overwritten
by the defaults while the stock survives. -/
theorem actualizar_solo_nombre_reinicia_testigo :
    dictGet [("pan", Valor.entrada 7 "kg" "ALTO")] (claveDe "pan") =
      some (.entrada 7 "kg" "ALTO") ∧
    (actualizar_despensa [("pan", Valor.entrada 7 "kg" "ALTO")] "pan"
        none none none).db =
      dictSet [("pan", Valor.entrada 7 "kg" "ALTO")] (claveDe "pan")
        (.entrada 7 "unidad" "MEDIO") :=
  ⟨by decide,
    (actualizar_solo_nombre_reinicia [("pan", Valor.entrada 7 "kg" "ALTO")]
      "pan" 7 "kg" "ALTO" (by decide)).1⟩

/-- C10: whenever the upsert fails, the whole ledger is left exactly as it
was: no entry is created, removed or modified. -/
theorem actualizar_fallo_no_modifica (db : Ledger) (name : String)
    (cantidad : Option Int) (u : Option String) (estado : Option String)
    (h : (actualizar_despensa db name cantidad u estado).exito = false) :
    (actualizar_despensa db name cantidad u estado).db = db :=
  ((actualizar_fallo_aux db name cantidad u estado).2 h).2

/-- Concrete instance of C10 at an invalid explicit status. -/
theorem actualizar_fallo_no_modifica_testigo :
    (actualizar_despensa [("pan", Valor.entrada 2 "kg" "MEDIO")] "pan"
        (some 9) none (some "REBOSANTE")).exito = false ∧
    (actualizar_despensa [("pan", Valor.entrada 2 "kg" "MEDIO")] "pan"
        (some 9) none (some "REBOSANTE")).db =
      [("pan", Valor.entrada 2 "kg" "MEDIO")] :=
  ⟨by decide,
    actualizar_fallo_no_modifica [("pan", Valor.entrada 2 "kg" "MEDIO")]
      "pan" (some 9) none (some "REBOSANTE") (by decide)⟩

/-! ## Claim theorems: fail-soft extraction (C4) -/

/-- C4: when the language capability's output cannot be decoded as JSON,
the extraction returns the fixed fail-soft default (action QUERY, no
items, the fixed failure rationale) instead of raising. -/
theorem extraer_fallo_suave :
    extraer_productos_desde_texto .errorJson =
      { accion := "QUERY", productos := [],
        intencion := "no se pudo extraer información estructurada" } ∧
    ∀ r : SalidaCapacidad, (∀ e, r ≠ .valida e) →
      (extraer_productos_desde_texto r).accion = "QUERY" ∧
      (extraer_productos_desde_texto r).productos = [] := by
  refine ⟨rfl, ?_⟩
  intro r hr
  cases r with
  | valida e => exact absurd rfl (hr e)
  | errorJson => exact ⟨rfl, rfl⟩
  | errorOtro => exact ⟨rfl, rfl⟩

/-- Concrete instance of C4: both failure modes degrade to the QUERY
default. -/
theorem extraer_fallo_suave_testigo :
    (extraer_productos_desde_texto .errorOtro).accion = "QUERY" ∧
    (extraer_productos_desde_texto .errorOtro).productos = [] :=
  extraer_fallo_suave.2 .errorOtro (fun e h => by cases h)

/-! ## Claim theorems: transcription validation (C7) -/

/-- C7: an unsupported extension is rejected with the format error, a
missing file with the not-found error, and an oversize file with the
too-large error, and in each case no external transcription call is
made. -/
theorem transcribir_valida_antes_de_llamar (f : ArchivoAudio) (t : String) :
    (f.existe = true → f.esArchivo = true →
      f.extension ∉ extensionesValidas →
      transcribir_audio f t = (.error .formatoNoSoportado, 0)) ∧
    (f.existe = false →
      transcribir_audio f t = (.error .noEncontrado, 0)) ∧
    (f.existe = true → f.esArchivo = true →
      f.extension ∈ extensionesValidas →
      f.tamanoBytes > 25 * 1024 * 1024 →
      transcribir_audio f t = (.error .demasiadoGrande, 0)) := by
  refine ⟨?_, ?_, ?_⟩
  · intro h1 h2 h3
    simp [transcribir_audio, h1, h2, h3]
  · intro h1
    simp [transcribir_audio, h1]
  · intro h1 h2 h3 h4
    simp [transcribir_audio, h1, h2, h3, h4]

/-- Concrete instances of C7: a .xyz file, a missing file and a 30 MB
file are each rejected with the right error and zero external calls. -/
theorem transcribir_valida_antes_de_llamar_testigo :
    transcribir_audio ⟨true, true, ".xyz", 1000⟩ "hola" =
      (.error .formatoNoSoportado, 0) ∧
    transcribir_audio ⟨false, true, ".mp3", 1000⟩ "hola" =
      (.error .noEncontrado, 0) ∧
    transcribir_audio ⟨true, true, ".mp3", 30000000⟩ "hola" =
      (.error .demasiadoGrande, 0) :=
  ⟨(transcribir_valida_antes_de_llamar ⟨true, true, ".xyz", 1000⟩ "hola").1
      rfl rfl (by decide),
    (transcribir_valida_antes_de_llamar ⟨false, true, ".mp3", 1000⟩ "hola").2.1
      rfl,
    (transcribir_valida_antes_de_llamar ⟨true, true, ".mp3", 30000000⟩
      "hola").2.2 rfl rfl (by decide) (by decide)⟩

/-! ## Claim theorems: upsert/get round trip (C5) -/

/-- Counterexample to C5 as stated: with the empty-string unit, Python's
`unidad or "unidad"` replaces it by the default, so the entry read back
carries unit "unidad" rather than the unit that was passed. -/
theorem ronda_ida_vuelta_contraejemplo :
    (consultar_despensa
        (actualizar_despensa [] "milk" (some 2) (some "") none).db
        "milk").unidad = some "unidad" ∧
    ¬ (consultar_despensa
        (actualizar_despensa [] "milk" (some 2) (some "") none).db
        "milk").unidad = some "" := by
  decide

/-- C5 amended: for every non-empty unit u and quantity q >= 0, upserting
(name, q, u) with no explicit status and then querying any name with the
same lowercase-trimmed form finds an entry with exactly stock q, unit u
and the derived status; the entry is stored at the lowercase-trimmed
key. -/
theorem ronda_ida_vuelta (db : Ledger) (name name' : String) (q : Int)
    (u : String) (_hq : 0 ≤ q) (hu : u ≠ "")
    (hk : claveDe name' = claveDe name) :
    consultar_despensa (actualizar_despensa db name (some q) (some u) none).db
        name' =
      { encontrado := true, stock := some q, unidad := some u,
        estado := some (estadoDerivado q) } ∧
    dictGet (actualizar_despensa db name (some q) (some u) none).db
        (claveDe name) =
      some (.entrada q u (estadoDerivado q)) := by
  rw [actualizar_sin_estado]
  have hset : dictGet
      (dictSet db (claveDe name)
        (.entrada (stockNuevo (dictGet db (claveDe name)) (some q))
          (unidadEfectiva (some u)) (estadoElegido none (some q))))
      (claveDe name) =
      some (.entrada q u (estadoDerivado q)) := by
    rw [dictGet_dictSet, if_pos rfl]
    simp [stockNuevo, unidadEfectiva, estadoElegido, hu]
  refine ⟨?_, hset⟩
  unfold consultar_despensa
  rw [hk, hset]

/-- Concrete instance of the amended C5: upsert with a spaced, mixed-case
name, then query by another casing of the same name. -/
theorem ronda_ida_vuelta_testigo :
    consultar_despensa
        (actualizar_despensa [] "  Milk " (some 2) (some "liter") none).db
        "MILK" =
      { encontrado := true, stock := some 2, unidad := some "liter",
        estado := some "MEDIO" } := by
  have h := (ronda_ida_vuelta [] "  Milk " "MILK" 2 "liter" (by decide)
    (by decide) (by decide)).1
  have he : estadoDerivado 2 = "MEDIO" := by decide
  rw [he] at h
  exact h

/-! ## Claim theorems: shopping list (C1) -/

/-- Spec-side: the status carried by a stored value. -/
def estadoValor : Valor → String
  | .entrada _ _ e => e
  | .legado e => e

/-- Spec-side, from the claim's words: the ledger entries whose status is
LOW (BAJO). -/
def entradasBajas (db : Ledger) : Ledger :=
  db.filter (fun kv => estadoValor kv.2 == "BAJO")

/-- Counterexample to C1 as stated: a reachable ledger entry with stock 0
but explicit status ALTO is put on the shopping list even though its
status is not BAJO, so the SHOPPING_LIST action does not return exactly
the LOW-status entries. -/
theorem lista_compras_contraejemplo :
    (actualizar_despensa [] "azucar" (some 0) (some "kg")
        (some "ALTO")).db = [("azucar", Valor.entrada 0 "kg" "ALTO")] ∧
    (procesar_extracto_productos [("azucar", Valor.entrada 0 "kg" "ALTO")]
        ⟨"SHOPPING_LIST", [], "lista de compras"⟩).2.resultados =
      [.listaCompras [⟨"azucar", some 0, some "kg", "ALTO"⟩]] ∧
    entradasBajas [("azucar", Valor.entrada 0 "kg" "ALTO")] = [] := by
  decide

/-- Spec-side: the condition under which the code's SHOPPING_LIST scan
lists an entry. -/
def esCompraPendiente : Valor → Bool
  | .entrada s _ e => e == "BAJO" || s == 0
  | .legado e => e == "BAJO"

/-- Spec-side: how a listed entry is rendered on the shopping list. -/
def comoProductoBajo : String × Valor → ProductoBajo
  | (n, .entrada s u e) => ⟨n, some s, some u, e⟩
  | (n, .legado e) => ⟨n, none, none, e⟩

/-- C1 amended: a SHOPPING_LIST intent leaves the ledger unchanged and
returns exactly the entries whose status is BAJO or whose stock is 0
(legacy bare-status entries: exactly those with status BAJO), in ledger
order. -/
theorem lista_compras_exacta (db : Ledger) (ps : List Item) (i : String) :
    procesar_extracto_productos db ⟨"SHOPPING_LIST", ps, i⟩ =
      (db, { accionOriginal := "SHOPPING_LIST",
             resultados := [.listaCompras (productos_bajo_stock db)] }) ∧
    productos_bajo_stock db =
      (db.filter (fun kv => esCompraPendiente kv.2)).map comoProductoBajo := by
  constructor
  · simp only [procesar_extracto_productos]
    rw [if_neg (by decide), if_neg (by decide), if_pos trivial]
  · induction db with
    | nil => rfl
    | cons kv rest ih =>
        obtain ⟨n, v⟩ := kv
        cases v with
        | entrada s u e =>
            by_cases hb : e = "BAJO" ∨ s = 0
            · simp [productos_bajo_stock, hb, esCompraPendiente,
                comoProductoBajo, ih]
            · have h1 : ¬ e = "BAJO" := fun h => hb (Or.inl h)
              have h2 : ¬ s = 0 := fun h => hb (Or.inr h)
              simp [productos_bajo_stock, hb, esCompraPendiente, h1, h2, ih]
        | legado e =>
            by_cases hb : e = "BAJO"
            · simp [productos_bajo_stock, hb, esCompraPendiente,
                comoProductoBajo, ih]
            · simp [productos_bajo_stock, hb, esCompraPendiente, ih]

/-! ## Claim theorems: the orchestrator's final scan (C8) -/

theorem buscarAux_eq_findSome (l : List (Option Extracto)) :
    buscarAux l = l.findSome? id := by
  induction l with
  | nil => rfl
  | cons h t ih => cases h <;> simp [buscarAux, List.findSome?_cons, ih]

theorem buscarAux_eq_none (l : List (Option Extracto)) :
    buscarAux l = none ↔ ∀ m ∈ l, m = none := by
  induction l with
  | nil => simp [buscarAux]
  | cons h t ih => cases h <;> simp [buscarAux, ih]

/-- C8: after a turn, the reverse scan of the turn's tool outputs governs
the outcome: with no embedded payload the caller gets only the reply and
the ledger is untouched; with a payload, the most recent one is applied
through procesar_extracto_productos before the turn ends and the caller
gets the reply together with the structured outcome.  The scan equals a
first-hit search over the reversed message list, and a payload appended
last always wins. -/
theorem orquestador_escaneo_final (db : Ledger) (r : String)
    (msgs : List (Option Extracto)) :
    (buscarExtracto msgs = none →
      run_agent_final db r msgs =
        (db, { respuesta := r, extracto := none,
               resultadoProcesado := none })) ∧
    (∀ ex, buscarExtracto msgs = some ex →
      run_agent_final db r msgs =
        ((procesar_extracto_productos db ex).1,
         { respuesta := r, extracto := some ex,
           resultadoProcesado := some (procesar_extracto_productos db ex).2 })) ∧
    (buscarExtracto msgs = none ↔ ∀ m ∈ msgs, m = none) ∧
    (buscarExtracto msgs = msgs.reverse.findSome? id) ∧
    (∀ ex, buscarExtracto (msgs ++ [some ex]) = some ex) := by
  refine ⟨?_, ?_, ?_, ?_, ?_⟩
  · intro h
    unfold run_agent_final
    rw [h]
  · intro ex h
    unfold run_agent_final
    rw [h]
  · rw [buscarExtracto, buscarAux_eq_none]
    constructor
    · intro h m hm
      exact h m (List.mem_reverse.mpr hm)
    · intro h m hm
      exact h m (List.mem_reverse.mp hm)
  · exact buscarAux_eq_findSome msgs.reverse
  · intro ex
    simp [buscarExtracto, List.reverse_append, buscarAux]

/-- Concrete instance of C8: of two embedded payloads the later one is
chosen and fed to the updater; with no payload the ledger is untouched. -/
theorem orquestador_escaneo_final_testigo :
    run_agent_final [] "listo"
        [some ⟨"UPDATE", [], "a"⟩, none, some ⟨"SHOPPING_LIST", [], "b"⟩,
          none] =
      ((procesar_extracto_productos [] ⟨"SHOPPING_LIST", [], "b"⟩).1,
       { respuesta := "listo",
         extracto := some ⟨"SHOPPING_LIST", [], "b"⟩,
         resultadoProcesado :=
           some (procesar_extracto_productos []
             ⟨"SHOPPING_LIST", [], "b"⟩).2 }) ∧
    run_agent_final [] "listo" [none, none] =
      ([], { respuesta := "listo", extracto := none,
             resultadoProcesado := none }) :=
  ⟨(orquestador_escaneo_final [] "listo"
      [some ⟨"UPDATE", [], "a"⟩, none, some ⟨"SHOPPING_LIST", [], "b"⟩,
        none]).2.1 ⟨"SHOPPING_LIST", [], "b"⟩ (by decide),
   (orquestador_escaneo_final [] "listo" [none, none]).1 (by decide)⟩

/-! ## Idempotence of UPDATE intents (C6)

The UPDATE/CREATE loop applies one upsert per item, in order, with no
explicit status.  The development below characterises the ledger reached
by such a loop key by key and shows the whole loop is idempotent. -/

/-- Storage key of one line item. -/
def clave (p : Item) : String := claveDe p.nombre

/-- Ledger effect of processing one line item of an UPDATE/CREATE intent
(the upsert call at lines 321-325). -/
def paso (db : Ledger) (p : Item) : Ledger :=
  (actualizar_despensa db p.nombre p.cantidad (some (p.unidad.getD "unidad"))
    none).db

/-- Ledger effect of the whole UPDATE/CREATE loop. -/
def aplicarLedger (db : Ledger) : List Item → Ledger
  | [] => db
  | p :: rest => aplicarLedger (paso db p) rest

/-- The items of a list whose storage key is k, in order. -/
def itemsEn (k : String) : List Item → List Item
  | [] => []
  | p :: rest =>
      if clave p = k then p :: itemsEn k rest else itemsEn k rest

/-- The stock an upsert with no quantity keeps: the previous structured
stock, or 0. -/
def stockDe : Option Valor → Int
  | some (.entrada s _ _) => s
  | _ => 0

/-- The value one item writes over the current value at its key. -/
def pasoValor (v : Option Valor) (p : Item) : Option Valor :=
  some (.entrada (stockNuevo v p.cantidad)
    (unidadEfectiva (some (p.unidad.getD "unidad")))
    (estadoElegido none p.cantidad))

/-- Value at one key after a run of items with that key. -/
def valorFinal (v : Option Valor) : List Item → Option Valor
  | [] => v
  | p :: rest => valorFinal (pasoValor v p) rest

/-- Stock component of one item's write. -/
def stockPaso (s : Int) (p : Item) : Int :=
  match p.cantidad with
  | some c => c
  | none => s

/-- Stock at one key after a run of items with that key. -/
def stockFinal (s : Int) : List Item → Int
  | [] => s
  | p :: rest => stockFinal (stockPaso s p) rest

theorem stockNuevo_none (v : Option Valor) : stockNuevo v none = stockDe v := by
  cases v with
  | none => rfl
  | some w => cases w <;> rfl

theorem paso_eq (db : Ledger) (p : Item) :
    paso db p = dictSet db (clave p)
      (.entrada (stockNuevo (dictGet db (clave p)) p.cantidad)
        (unidadEfectiva (some (p.unidad.getD "unidad")))
        (estadoElegido none p.cantidad)) := by
  unfold paso clave
  rw [actualizar_sin_estado]

theorem paso_dictGet (db : Ledger) (p : Item) (k : String) :
    dictGet (paso db p) k =
      if k = clave p then pasoValor (dictGet db (clave p)) p
      else dictGet db k := by
  rw [paso_eq, dictGet_dictSet]
  rfl

theorem claves_dictSet (db : Ledger) (k : String) (v : Valor) :
    claves (dictSet db k v) =
      if k ∈ claves db then claves db else claves db ++ [k] := by
  induction db with
  | nil => simp [dictSet, claves]
  | cons kv rest ih =>
      obtain ⟨a, b⟩ := kv
      by_cases ha : a = k
      · subst ha
        simp [dictSet, claves]
      · have hcons : claves ((a, b) :: dictSet rest k v) =
            a :: claves (dictSet rest k v) := rfl
        rw [show dictSet ((a, b) :: rest) k v =
          (a, b) :: dictSet rest k v from by simp [dictSet, ha], hcons, ih]
        by_cases hk : k ∈ claves rest
        · rw [if_pos hk,
            if_pos (show k ∈ claves ((a, b) :: rest) from
              List.mem_cons_of_mem a hk)]
          rfl
        · have hnm : k ∉ claves ((a, b) :: rest) := by
            simp only [claves, List.map_cons, List.mem_cons]
            rintro (h | h)
            · exact ha h.symm
            · exact hk h
          rw [if_neg hk, if_neg hnm]
          rfl

theorem mem_claves_dictSet_self (db : Ledger) (k : String) (v : Valor) :
    k ∈ claves (dictSet db k v) := by
  rw [claves_dictSet]
  by_cases h : k ∈ claves db <;> simp [h]

theorem mem_claves_dictSet (db : Ledger) (k : String) (v : Valor)
    (k' : String) (h : k' ∈ claves db) : k' ∈ claves (dictSet db k v) := by
  rw [claves_dictSet]
  by_cases hk : k ∈ claves db <;> simp [hk, h]

theorem nodup_claves_dictSet (db : Ledger) (k : String) (v : Valor)
    (h : (claves db).Nodup) : (claves (dictSet db k v)).Nodup := by
  rw [claves_dictSet]
  by_cases hk : k ∈ claves db
  · rwa [if_pos hk]
  · rw [if_neg hk, List.nodup_append]
    refine ⟨h, List.nodup_singleton k, ?_⟩
    intro a ha hak
    simp only [List.mem_singleton] at hak
    exact hk (hak ▸ ha)

theorem dictGet_eq_none (db : Ledger) (k : String) :
    dictGet db k = none ↔ k ∉ claves db := by
  induction db with
  | nil => simp [dictGet, claves]
  | cons kv rest ih =>
      obtain ⟨a, b⟩ := kv
      by_cases h : a = k
      · subst h
        simp [dictGet, claves]
      · simp only [dictGet, if_neg h, claves, List.map_cons, List.mem_cons,
          ih]
        constructor
        · rintro hni (hk | hk)
          · exact h hk.symm
          · exact hni hk
        · intro hni hk
          exact hni (Or.inr hk)

theorem dict_ext : ∀ l₁ l₂ : Ledger, claves l₁ = claves l₂ →
    (claves l₁).Nodup → (∀ k, dictGet l₁ k = dictGet l₂ k) → l₁ = l₂ := by
  intro l₁
  induction l₁ with
  | nil =>
      intro l₂ hc _ _
      cases l₂ with
      | nil => rfl
      | cons kv t => simp [claves] at hc
  | cons kv t₁ ih =>
      intro l₂ hc hnd hget
      obtain ⟨k₁, v₁⟩ := kv
      cases l₂ with
      | nil => simp [claves] at hc
      | cons kv₂ t₂ =>
          obtain ⟨k₂, v₂⟩ := kv₂
          have hk : k₁ = k₂ ∧ claves t₁ = claves t₂ := by
            have : k₁ :: claves t₁ = k₂ :: claves t₂ := hc
            exact ⟨List.head_eq_of_cons_eq this,
              List.tail_eq_of_cons_eq this⟩
          obtain ⟨hk12, htc⟩ := hk
          subst hk12
          have hv : v₁ = v₂ := by
            have := hget k₁
            simpa [dictGet] using this
          subst hv
          have hnd' : k₁ ∉ claves t₁ ∧ (claves t₁).Nodup := by
            simpa [claves, List.nodup_cons] using hnd
          have hget' : ∀ k, dictGet t₁ k = dictGet t₂ k := by
            intro k
            by_cases hk : k = k₁
            · subst hk
              rw [(dictGet_eq_none t₁ k).mpr hnd'.1,
                (dictGet_eq_none t₂ k).mpr (htc ▸ hnd'.1)]
            · have hne : ¬ k₁ = k := fun h => hk h.symm
              have := hget k
              simpa [dictGet, hne] using this
          rw [ih t₂ htc hnd'.2 hget']

theorem aplicarProductos_fst (db : Ledger) (ps : List Item) :
    (aplicarProductos db ps).1 = aplicarLedger db ps := by
  induction ps generalizing db with
  | nil => rfl
  | cons p rest ih => simp [aplicarProductos, aplicarLedger, paso, ih]

theorem mem_claves_aplicar (ps : List Item) :
    ∀ (db : Ledger) (k' : String), k' ∈ claves db →
      k' ∈ claves (aplicarLedger db ps) := by
  induction ps with
  | nil => intro db k' h; exact h
  | cons p rest ih =>
      intro db k' h
      exact ih (paso db p) k' (by rw [paso_eq]; exact mem_claves_dictSet _ _ _ _ h)

theorem claves_aplicar_items (ps : List Item) :
    ∀ (db : Ledger) (p : Item), p ∈ ps →
      clave p ∈ claves (aplicarLedger db ps) := by
  induction ps with
  | nil => intro db p h; cases h
  | cons q rest ih =>
      intro db p hp
      rcases List.mem_cons.mp hp with h | h
      · subst h
        exact mem_claves_aplicar rest (paso db p) (clave p)
          (by rw [paso_eq]; exact mem_claves_dictSet_self _ _ _)
      · exact ih (paso db q) p h

theorem claves_aplicar_estable (ps : List Item) :
    ∀ db : Ledger, (∀ p ∈ ps, clave p ∈ claves db) →
      claves (aplicarLedger db ps) = claves db := by
  induction ps with
  | nil => intro db _; rfl
  | cons p rest ih =>
      intro db h
      have hp : clave p ∈ claves db := h p (List.mem_cons_self p rest)
      have hpaso : claves (paso db p) = claves db := by
        rw [paso_eq, claves_dictSet, if_pos hp]
      have := ih (paso db p)
        (fun q hq => hpaso ▸ h q (List.mem_cons_of_mem p hq))
      rw [show aplicarLedger db (p :: rest) =
        aplicarLedger (paso db p) rest from rfl, this, hpaso]

theorem nodup_claves_aplicar (ps : List Item) :
    ∀ db : Ledger, (claves db).Nodup →
      (claves (aplicarLedger db ps)).Nodup := by
  induction ps with
  | nil => intro db h; exact h
  | cons p rest ih =>
      intro db h
      exact ih (paso db p) (by rw [paso_eq]; exact nodup_claves_dictSet _ _ _ h)

theorem dictGet_aplicar (ps : List Item) :
    ∀ (db : Ledger) (k : String),
      dictGet (aplicarLedger db ps) k =
        valorFinal (dictGet db k) (itemsEn k ps) := by
  induction ps with
  | nil => intro db k; rfl
  | cons p rest ih =>
      intro db k
      have hstep : dictGet (aplicarLedger db (p :: rest)) k =
          valorFinal (dictGet (paso db p) k) (itemsEn k rest) := ih (paso db p) k
      by_cases hp : clave p = k
      · rw [hstep, paso_dictGet, if_pos hp.symm,
          show itemsEn k (p :: rest) = p :: itemsEn k rest from by
            simp [itemsEn, hp], hp]
        rfl
      · rw [hstep, paso_dictGet, if_neg (fun h => hp h.symm),
          show itemsEn k (p :: rest) = itemsEn k rest from by
            simp [itemsEn, hp]]

theorem stockDe_pasoValor (v : Option Valor) (p : Item) :
    stockDe (pasoValor v p) = stockPaso (stockDe v) p := by
  cases hc : p.cantidad with
  | none => simp [pasoValor, stockDe, stockPaso, hc, stockNuevo_none]
  | some c => simp [pasoValor, stockDe, stockPaso, hc, stockNuevo]

theorem stockDe_valorFinal (qs : List Item) :
    ∀ v : Option Valor,
      stockDe (valorFinal v qs) = stockFinal (stockDe v) qs := by
  induction qs with
  | nil => intro v; rfl
  | cons p rest ih =>
      intro v
      rw [show valorFinal v (p :: rest) =
        valorFinal (pasoValor v p) rest from rfl, ih,
        stockDe_pasoValor]
      rfl

theorem pasoValor_congr (x y : Option Valor) (p : Item)
    (h : stockDe x = stockDe y) : pasoValor x p = pasoValor y p := by
  cases hc : p.cantidad with
  | none => simp [pasoValor, stockNuevo_none, hc, h]
  | some c => simp [pasoValor, stockNuevo, hc]

theorem valorFinal_congr : ∀ qs : List Item, qs ≠ [] →
    ∀ x y : Option Valor,
      stockFinal (stockDe x) qs = stockFinal (stockDe y) qs →
      valorFinal x qs = valorFinal y qs := by
  intro qs
  induction qs with
  | nil => intro h; exact absurd rfl h
  | cons p rest ih =>
      intro _ x y h
      cases rest with
      | nil =>
          cases hc : p.cantidad with
          | none =>
              have hxy : stockDe x = stockDe y := by
                simpa [stockFinal, stockPaso, hc] using h
              simpa [valorFinal] using pasoValor_congr x y p hxy
          | some c => simp [valorFinal, pasoValor, stockNuevo, hc]
      | cons q rest' =>
          have h' : stockFinal (stockDe (pasoValor x p)) (q :: rest') =
              stockFinal (stockDe (pasoValor y p)) (q :: rest') := by
            rw [stockDe_pasoValor, stockDe_pasoValor]
            simpa [stockFinal] using h
          simpa [valorFinal] using
            ih (by simp) (pasoValor x p) (pasoValor y p) h'

theorem stockFinal_idem (qs : List Item) :
    ∀ s : Int, stockFinal (stockFinal s qs) qs = stockFinal s qs := by
  induction qs with
  | nil => intro s; rfl
  | cons p rest ih =>
      intro s
      cases hc : p.cantidad with
      | none =>
          have hred : ∀ t : Int, stockFinal t (p :: rest) = stockFinal t rest :=
            fun t => by simp [stockFinal, stockPaso, hc]
          simp only [hred]
          exact ih s
      | some c =>
          have hred : ∀ t : Int, stockFinal t (p :: rest) = stockFinal c rest :=
            fun t => by simp [stockFinal, stockPaso, hc]
          simp only [hred]

theorem valorFinal_idem (qs : List Item) (v : Option Valor) :
    valorFinal (valorFinal v qs) qs = valorFinal v qs := by
  cases qs with
  | nil => rfl
  | cons p rest =>
      apply valorFinal_congr (p :: rest) (by simp)
      rw [stockDe_valorFinal]
      exact stockFinal_idem (p :: rest) (stockDe v)

theorem aplicarLedger_idem (db : Ledger) (ps : List Item)
    (hnd : (claves db).Nodup) :
    aplicarLedger (aplicarLedger db ps) ps = aplicarLedger db ps := by
  have hclaves : claves (aplicarLedger (aplicarLedger db ps) ps) =
      claves (aplicarLedger db ps) :=
    claves_aplicar_estable ps (aplicarLedger db ps)
      (fun p hp => claves_aplicar_items ps db p hp)
  apply dict_ext _ _ hclaves
  · rw [hclaves]
    exact nodup_claves_aplicar ps db hnd
  · intro k
    rw [dictGet_aplicar, dictGet_aplicar]
    exact valorFinal_idem (itemsEn k ps) (dictGet db k)

/-- The ledger component of an UPDATE intent is the item loop. -/
theorem procesar_update_fst (db : Ledger) (ps : List Item) (i : String) :
    (procesar_extracto_productos db ⟨"UPDATE", ps, i⟩).1 =
      aplicarLedger db ps := by
  simp only [procesar_extracto_productos]
  rw [if_pos (Or.inl trivial)]
  exact aplicarProductos_fst db ps

/-- C6: applying the same UPDATE intent twice, with identical items and
quantities, yields exactly the same final ledger as applying it once. -/
theorem actualizacion_idempotente (db : Ledger)
    (hnd : (claves db).Nodup) (ps : List Item) (i i' : String) :
    (procesar_extracto_productos
        (procesar_extracto_productos db ⟨"UPDATE", ps, i⟩).1
        ⟨"UPDATE", ps, i'⟩).1 =
      (procesar_extracto_productos db ⟨"UPDATE", ps, i⟩).1 := by
  rw [procesar_update_fst, procesar_update_fst]
  exact aplicarLedger_idem db ps hnd

/-- Concrete instance of C6: one quantity-bearing item and one
quantity-less item, re-applied over a dict-shaped (duplicate-free)
ledger. -/
theorem actualizacion_idempotente_testigo :
    (claves [("leche", Valor.entrada 1 "litro" "MEDIO")]).Nodup ∧
    (procesar_extracto_productos
        (procesar_extracto_productos
          [("leche", Valor.entrada 1 "litro" "MEDIO")]
          ⟨"UPDATE", [⟨"leche", some 2, some "litro"⟩, ⟨"pan", none, none⟩],
            "a"⟩).1
        ⟨"UPDATE", [⟨"leche", some 2, some "litro"⟩, ⟨"pan", none, none⟩],
          "b"⟩).1 =
      (procesar_extracto_productos
        [("leche", Valor.entrada 1 "litro" "MEDIO")]
        ⟨"UPDATE", [⟨"leche", some 2, some "litro"⟩, ⟨"pan", none, none⟩],
          "a"⟩).1 :=
  ⟨by decide,
    actualizacion_idempotente [("leche", Valor.entrada 1 "litro" "MEDIO")]
      (by decide) [⟨"leche", some 2, some "litro"⟩, ⟨"pan", none, none⟩]
      "a" "b"⟩

end Despensa
